import Mathlib

/-!
# libovsdb: the client database model registry and the notification handlers

A shallow embedding of `model/client.go` (the `ClientDBModel` registry:
`NewClientDBModel`, `NewModel`, `Types`, `Name`, `FindTable`, `Validate`) together
with the part of Go's `reflect` package the registry calls, and of the `update` and
`echo` handlers exercised by `client/client_test.go`.

Conventions of the embedding:

* A Go function that can panic returns `Go α = Except Panic α`: `Except.ok` is a
  normal return, `Except.error` a panic.
* A Go result pair `(x, err)` is a Lean pair of `Option`s, `none` standing for `nil`.
* A Go `map[string]V` is a `GoMap V`: a list of entries with pairwise distinct keys.
  The order of the list is the order in which `range` visits the map; Go leaves that
  order unspecified, and every theorem below holds for every list, hence every order.
-/

namespace Libovsdb

/-! ## Go runtime: panics, errors, maps -/

/-- A run-time panic, with its message. -/
structure Panic where
  msg : String
deriving DecidableEq, Repr

/-- The outcome of a Go call: `Except.ok` is a normal return, `Except.error` a panic. -/
abbrev Go (α : Type) := Except Panic α

/-- An `error` value built by `fmt.Errorf(format, args...)`: the format and its arguments. -/
structure GoError where
  format : String
  args : List String
deriving DecidableEq, Repr

/-- The function `fmt.Errorf`. -/
def fmt.Errorf (format : String) (args : List String) : GoError := ⟨format, args⟩

/-- A Go `map[string]V`: entries with pairwise distinct keys, listed in `range` order. -/
structure GoMap (V : Type) where
  entries : List (String × V)
  nodup : (entries.map Prod.fst).Nodup

/-- The map `make(map[string]V)`. -/
def GoMap.empty {V : Type} : GoMap V := ⟨[], List.nodup_nil⟩

/-- The lookup `v, ok := m[k]`: `none` when `ok` is false. -/
def GoMap.get? {V : Type} (m : GoMap V) (k : String) : Option V :=
  (m.entries.find? (fun e => e.1 = k)).map Prod.snd

/-- The assignment `m[k] = v`: the entry of `k`, if any, is replaced. -/
def GoMap.set {V : Type} (m : GoMap V) (k : String) (v : V) : GoMap V :=
  ⟨(k, v) :: m.entries.filter (fun e => e.1 ≠ k), by
    rw [List.map_cons, List.nodup_cons]
    refine ⟨?_, (m.nodup.sublist ((List.filter_sublist _).map Prod.fst))⟩
    intro h
    obtain ⟨e, he, hk⟩ := List.mem_map.1 h
    have := (List.mem_filter.1 he).2
    simp at this
    exact this hk⟩

/-! ## Go runtime: the `reflect` view of types and values -/

/-- The enumeration `reflect.Kind`. -/
inductive Kind
  | Invalid | Bool | Int | Int8 | Int16 | Int32 | Int64
  | Uint | Uint8 | Uint16 | Uint32 | Uint64 | Uintptr
  | Float32 | Float64 | Complex64 | Complex128
  | Array | Chan | Func | Interface | Map | Ptr | Slice | String | Struct | UnsafePointer
deriving DecidableEq, Repr

/-- The predeclared non-composite types of Go. -/
inductive Basic
  | bool | int | int8 | int16 | int32 | int64
  | uint | uint8 | uint16 | uint32 | uint64 | uintptr
  | float32 | float64 | complex64 | complex128 | string | unsafePointer
deriving DecidableEq, Repr

/-- The kind of a predeclared type. -/
def Basic.Kind : Basic → Kind
  | .bool => .Bool | .int => .Int | .int8 => .Int8 | .int16 => .Int16
  | .int32 => .Int32 | .int64 => .Int64
  | .uint => .Uint | .uint8 => .Uint8 | .uint16 => .Uint16 | .uint32 => .Uint32
  | .uint64 => .Uint64 | .uintptr => .Uintptr
  | .float32 => .Float32 | .float64 => .Float64
  | .complex64 => .Complex64 | .complex128 => .Complex128
  | .string => .String | .unsafePointer => .UnsafePointer

/-- A struct tag such as `ovsdb:"_uuid" json:"id"`, as its key/value pairs in order. -/
abbrev StructTag := List (String × String)

/-- The method `StructTag.Get`: the value of the first pair with that key, else `""`. -/
def StructTag.Get (tag : StructTag) (key : String) : String :=
  ((tag.find? (fun kv => kv.1 = key)).map Prod.snd).getD ""

mutual
/-- A Go type as `reflect.Type` describes it. Two `reflect.Type` values are `==`
exactly when they describe identical types, which here is equality of terms. -/
inductive GoType where
  | basic (b : Basic)
  | named (name : String) (underlying : GoType)
  | ptr (elem : GoType)
  | slice (elem : GoType)
  | array (len : Nat) (elem : GoType)
  | map (key : GoType) (elem : GoType)
  | chan (elem : GoType)
  | func (signature : String)
  | iface (methods : List String)
  | struct (fields : FieldList)
deriving DecidableEq
/-- The fields of a struct type, in declaration order: name, tag and type of each. -/
inductive FieldList where
  | nil
  | cons (name : String) (tag : StructTag) (type : GoType) (rest : FieldList)
deriving DecidableEq
end

/-- The method `reflect.Type.Kind`. -/
def GoType.Kind : GoType → Kind
  | .basic b => b.Kind
  | .named _ u => u.Kind
  | .ptr _ => .Ptr
  | .slice _ => .Slice
  | .array _ _ => .Array
  | .map _ _ => .Map
  | .chan _ => .Chan
  | .func _ => .Func
  | .iface _ => .Interface
  | .struct _ => .Struct

/-- The method `reflect.Type.Elem`: it panics unless the kind is Array, Chan, Map,
Ptr or Slice. -/
def GoType.Elem : GoType → Go GoType
  | .named _ u => u.Elem
  | .ptr e => .ok e
  | .slice e => .ok e
  | .array _ e => .ok e
  | .map _ e => .ok e
  | .chan e => .ok e
  | _ => .error ⟨"reflect: Elem of invalid type"⟩

/-- The fields that `NumField` and `Field(i)` enumerate: they panic unless the kind
is Struct. -/
def GoType.Fields : GoType → Go FieldList
  | .named _ u => u.Fields
  | .struct fs => .ok fs
  | _ => .error ⟨"reflect: NumField of non-struct type"⟩

/-- The number of fields in a field list. -/
def FieldList.length : FieldList → Nat
  | .nil => 0
  | .cons _ _ _ rest => rest.length + 1

mutual
/-- A Go value, as far as the registry builds and inspects values. -/
inductive GoValue where
  | bool (b : Bool)
  | int (n : Int)
  | float (bits : Nat)
  | complex (re : Nat) (im : Nat)
  | str (s : String)
  | nil
  | ptr (target : GoValue)
  | array (elems : ValueList)
  | struct (fields : ValueList)
deriving DecidableEq
/-- A sequence of values: the fields of a struct or the elements of an array. -/
inductive ValueList where
  | nil
  | cons (v : GoValue) (rest : ValueList)
deriving DecidableEq
end

/-- The number of values in a value list. -/
def ValueList.length : ValueList → Nat
  | .nil => 0
  | .cons _ rest => rest.length + 1

/-- The value list holding `n` copies of `v`. -/
def ValueList.replicate : Nat → GoValue → ValueList
  | 0, _ => .nil
  | n + 1, v => .cons v (ValueList.replicate n v)

/-- The zero value of a predeclared type. -/
def Basic.zero : Basic → GoValue
  | .bool => .bool false
  | .string => .str ""
  | .float32 | .float64 => .float 0
  | .complex64 | .complex128 => .complex 0 0
  | .unsafePointer => .nil
  | _ => .int 0

mutual
/-- The zero value of a type, as the Go language defines it. -/
def GoType.zero : GoType → GoValue
  | .basic b => b.zero
  | .named _ u => u.zero
  | .ptr _ => .nil
  | .slice _ => .nil
  | .array n e => .array (ValueList.replicate n e.zero)
  | .map _ _ => .nil
  | .chan _ => .nil
  | .func _ => .nil
  | .iface _ => .nil
  | .struct fs => .struct fs.zero
/-- The zero values of the fields of a struct type, field by field. -/
def FieldList.zero : FieldList → ValueList
  | .nil => .nil
  | .cons _ _ t rest => .cons t.zero rest.zero
end

mutual
/-- The test `reflect.Value.IsZero`: is the value the zero value of its type? -/
def GoValue.IsZero : GoValue → Bool
  | .bool b => !b
  | .int n => n == 0
  | .float bits => bits == 0
  | .complex re im => re == 0 && im == 0
  | .str s => s == ""
  | .nil => true
  | .ptr _ => false
  | .array es => es.AllZero
  | .struct fs => fs.AllZero
/-- Every value of the list is a zero value. -/
def ValueList.AllZero : ValueList → Bool
  | .nil => true
  | .cons v rest => v.IsZero && rest.AllZero
end

/-- A non-nil interface value: its dynamic type and its dynamic value. -/
structure Iface where
  typ : GoType
  val : GoValue
deriving DecidableEq

/-- A value of the interface type `Model`; `none` is the nil interface. -/
abbrev Model := Option Iface

/-- The function `reflect.TypeOf`: the dynamic type, `nil` for a nil interface. -/
def reflect.TypeOf (i : Model) : Option GoType := i.map Iface.typ

/-- The value `reflect.New(t).Interface()`: a pointer to a new zero value of `t`. -/
def reflect.New (t : GoType) : Iface := ⟨.ptr t, .ptr t.zero⟩

/-- The panic of a method call through a nil interface or a nil pointer. -/
def nilDereference : Panic := ⟨"runtime error: invalid memory address or nil pointer dereference"⟩

/-! ## model/client.go -/

/-- The struct `ClientDBModel`: the client information needed to build a database model. -/
structure ClientDBModel where
  name : String
  types : GoMap GoType

/-- The field loop of `NewClientDBModel`: `hasUUID` becomes true at every field that
is tagged `ovsdb:"_uuid"` and of kind String, and is never reset. -/
def NewClientDBModel.fieldLoop : FieldList → Bool → Bool
  | .nil, hasUUID => hasUUID
  | .cons _ tag type rest, hasUUID =>
    if StructTag.Get tag "ovsdb" = "_uuid" ∧ type.Kind = Kind.String then
      NewClientDBModel.fieldLoop rest true
    else
      NewClientDBModel.fieldLoop rest hasUUID

/-- The `range models` loop of `NewClientDBModel` on the entries still to visit, with
the `types` map built so far, up to the function's return. -/
def NewClientDBModel.rangeLoop (name : String) :
    List (String × Model) → GoMap GoType → Go (Option ClientDBModel × Option GoError)
  | [], types => .ok (some ⟨name, types⟩, none)
  | (table, model) :: rest, types =>
    match reflect.TypeOf model with
    | none => .error nilDereference
    | some modelType =>
      if modelType.Kind ≠ Kind.Ptr then
        .ok (none, some (fmt.Errorf "model is expected to be a pointer to struct" []))
      else
        match modelType.Elem with
        | .error p => .error p
        | .ok elem =>
          if elem.Kind ≠ Kind.Struct then
            .ok (none, some (fmt.Errorf "model is expected to be a pointer to struct" []))
          else
            match elem.Fields with
            | .error p => .error p
            | .ok fields =>
              if NewClientDBModel.fieldLoop fields false = false then
                .ok (none, some (fmt.Errorf "model is expected to have a string field called uuid" []))
              else
                NewClientDBModel.rangeLoop name rest (types.set table modelType)

/-- The constructor `NewClientDBModel`: a `ClientDBModel` from a database name and a
dictionary of models indexed by table name. -/
def NewClientDBModel (name : String) (models : GoMap Model) :
    Go (Option ClientDBModel × Option GoError) :=
  NewClientDBModel.rangeLoop name models.entries GoMap.empty

/-- The method `ClientDBModel.NewModel`: a new instance of the model of a table. The
type assertion `.(Model)` holds of every value, `Model` being an interface that every
prototype satisfies. -/
def ClientDBModel.NewModel (db : ClientDBModel) (table : String) :
    Go (Model × Option GoError) :=
  match db.types.get? table with
  | none => .ok (none, some (fmt.Errorf "table %s not found in database model" [table]))
  | some mtype =>
    match mtype.Elem with
    | .error p => .error p
    | .ok elem => .ok (some (reflect.New elem), none)

/-- The method `ClientDBModel.Types`. -/
def ClientDBModel.Types (db : ClientDBModel) : GoMap GoType := db.types

/-- The method `ClientDBModel.Name`. -/
def ClientDBModel.Name (db : ClientDBModel) : String := db.name

/-- The `range db.types` loop of `FindTable`: the first table, in `range` order, whose
registered type is `mType`, else `""`. The argument may be the nil `reflect.Type`. -/
def ClientDBModel.FindTable.rangeLoop (mType : Option GoType) : List (String × GoType) → String
  | [] => ""
  | (table, tType) :: rest =>
    if some tType = mType then table else ClientDBModel.FindTable.rangeLoop mType rest

/-- The method `ClientDBModel.FindTable`: the table registered with a type, or `""`. -/
def ClientDBModel.FindTable (db : ClientDBModel) (mType : Option GoType) : String :=
  ClientDBModel.FindTable.rangeLoop mType db.types.entries

/-- Modelled from the spec: the type `ovsdb.DatabaseSchema` is declared outside the
sources at hand. A schema is a database name and a description of each table; what a
table description holds is left to the column mapper, so it is a parameter. -/
structure DatabaseSchema (TableSchema : Type) where
  Name : String
  Tables : GoMap TableSchema

/-- Modelled from the spec: the method `DatabaseSchema.Table`, the description of a
table, `nil` when the schema has no such table. -/
def DatabaseSchema.Table {TableSchema : Type} (schema : DatabaseSchema TableSchema)
    (tableName : String) : Option TableSchema :=
  schema.Tables.get? tableName

/-- The `range db.types` loop of `Validate` on the entries still to visit, with the
`errors` slice built so far. `NewInfo` is the column mapper `mapper.NewInfo`, a
collaborator of which only the returned error is used. -/
def ClientDBModel.Validate.rangeLoop {TableSchema : Type}
    (NewInfo : TableSchema → Model → Option GoError)
    (db : ClientDBModel) (schema : DatabaseSchema TableSchema) :
    List (String × GoType) → List GoError → Go (List GoError)
  | [], errors => .ok errors
  | (tableName, _) :: rest, errors =>
    match schema.Table tableName with
    | none =>
      ClientDBModel.Validate.rangeLoop NewInfo db schema rest
        (errors ++ [fmt.Errorf
          "database model contains a model for table %s that does not exist in schema"
          [tableName]])
    | some tableSchema =>
      match db.NewModel tableName with
      | .error p => .error p
      | .ok (_, some err) =>
        ClientDBModel.Validate.rangeLoop NewInfo db schema rest (errors ++ [err])
      | .ok (model, none) =>
        match NewInfo tableSchema model with
        | some err =>
          ClientDBModel.Validate.rangeLoop NewInfo db schema rest (errors ++ [err])
        | none => ClientDBModel.Validate.rangeLoop NewInfo db schema rest errors

/-- The method `ClientDBModel.Validate`: all the errors detected when the database
model is validated against the schema, a non-nil pointer. -/
def ClientDBModel.Validate {TableSchema : Type}
    (NewInfo : TableSchema → Model → Option GoError)
    (db : ClientDBModel) (schema : DatabaseSchema TableSchema) : Go (List GoError) :=
  ClientDBModel.Validate.rangeLoop NewInfo db schema db.types.entries
    (if db.name ≠ schema.Name then
      [fmt.Errorf "database model name (%s) does not match schema (%s)"
        [db.name, schema.Name]]
    else [])

/-! ## Vocabulary of the specification -/

/-- Some field of the list is tagged `ovsdb:"_uuid"` and of kind String. -/
def FieldList.hasUUID : FieldList → Bool
  | .nil => false
  | .cons _ tag type rest =>
    (decide (StructTag.Get tag "ovsdb" = "_uuid") && decide (type.Kind = Kind.String))
      || rest.hasUUID

/-- The number of fields of the list that are tagged `ovsdb:"_uuid"`, of any kind. -/
def FieldList.countTagged : FieldList → Nat
  | .nil => 0
  | .cons _ tag _ rest =>
    (if StructTag.Get tag "ovsdb" = "_uuid" then 1 else 0) + rest.countTagged

/-- The type is a pointer to a struct. -/
def GoType.isPtrToStruct (t : GoType) : Bool :=
  decide (t.Kind = Kind.Ptr) &&
    match t.Elem with
    | .ok elem => decide (elem.Kind = Kind.Struct)
    | .error _ => false

/-- The type is a pointer to a struct that has a field tagged `ovsdb:"_uuid"` of kind
String: the shape of a record. -/
def GoType.isRecordShape (t : GoType) : Bool :=
  t.isPtrToStruct &&
    match t.Elem with
    | .ok elem =>
      (match elem.Fields with
       | .ok fields => fields.hasUUID
       | .error _ => false)
    | .error _ => false

/-- The prototype is a pointer to a struct that has a string field tagged
`ovsdb:"_uuid"`; the nil interface is no such prototype. -/
def Model.isRecord (m : Model) : Bool :=
  match reflect.TypeOf m with
  | some t => t.isRecordShape
  | none => false

/-- The defect of one registered table, in the words of the specification: an error
when the table is absent from the schema, and otherwise the failure, if any, of the
column binding built with a fresh `NewModel` instance. -/
def ClientDBModel.tableDefect {TableSchema : Type}
    (NewInfo : TableSchema → Model → Option GoError)
    (db : ClientDBModel) (schema : DatabaseSchema TableSchema)
    (e : String × GoType) : Option GoError :=
  match schema.Table e.1 with
  | none =>
    some (fmt.Errorf
      "database model contains a model for table %s that does not exist in schema" [e.1])
  | some tableSchema =>
    match db.NewModel e.1 with
    | .ok (model, none) => NewInfo tableSchema model
    | _ => none

/-- The defect of the database name, in the words of the specification: one error when
the name of the registry differs from the name of the schema. -/
def ClientDBModel.nameDefect {TableSchema : Type}
    (db : ClientDBModel) (schema : DatabaseSchema TableSchema) : List GoError :=
  if db.name ≠ schema.Name then
    [fmt.Errorf "database model name (%s) does not match schema (%s)" [db.name, schema.Name]]
  else []

/-- The registry invariant: every registered type is of kind Ptr, as `NewModel` needs
for its call of `Elem`. -/
def ClientDBModel.Registered (db : ClientDBModel) : Prop :=
  ∀ e ∈ db.types.entries, e.2.Kind = Kind.Ptr

instance (db : ClientDBModel) : Decidable db.Registered := by
  unfold ClientDBModel.Registered; infer_instance

/-! ## The `update` notification handler

`client/client_test.go` calls `OvsdbClient.update`, whose body is not among the sources
at hand: it is modelled from the specification of the notification dispatcher. -/

mutual
/-- A JSON value, the form in which the parameters of a call arrive. -/
inductive Json where
  | null
  | bool (b : Bool)
  | num (n : Int)
  | str (s : String)
  | arr (elems : JsonList)
  | obj (members : JsonMembers)
deriving DecidableEq
/-- The elements of a JSON array, in order. -/
inductive JsonList where
  | nil
  | cons (v : Json) (rest : JsonList)
deriving DecidableEq
/-- The members of a JSON object, in order. -/
inductive JsonMembers where
  | nil
  | cons (key : String) (v : Json) (rest : JsonMembers)
deriving DecidableEq
end

/-- The elements of a JSON array as a list. -/
def JsonList.toList : JsonList → List Json
  | .nil => []
  | .cons v rest => v :: rest.toList

/-- The members of a JSON object as a list of key/value pairs. -/
def JsonMembers.toList : JsonMembers → List (String × Json)
  | .nil => []
  | .cons key v rest => (key, v) :: rest.toList

/-- A scalar wire value: a string, a number or a boolean. -/
inductive Atom where
  | str (s : String)
  | num (n : Int)
  | bool (b : Bool)
deriving DecidableEq

/-- An element of a set on the wire: an atom or a named uuid. -/
inductive SetElem where
  | atom (a : Atom)
  | uuid (id : String)
deriving DecidableEq

/-- A wire value: an atom, a named uuid, a set (one nesting level) or a map of atoms
to atoms. -/
inductive WireValue where
  | atom (a : Atom)
  | uuid (id : String)
  | set (elems : List SetElem)
  | map (pairs : List (Atom × Atom))
deriving DecidableEq

/-- A row: a mapping from column name to wire value. -/
abbrev Row := GoMap WireValue

/-- A row update: the optional old and new rows. -/
structure RowUpdate where
  Old : Option Row
  New : Option Row

/-- A table update: a mapping from row identifier to row update. -/
abbrev TableUpdate := GoMap RowUpdate

/-- The table updates: a mapping from table name to table update, the full payload of
one notification. -/
abbrev TableUpdates := GoMap TableUpdate

/-- Modelled from the spec: the decoding of an atom, a bare JSON string, number or
boolean. -/
def decodeAtom : Json → Option Atom
  | .str s => some (.str s)
  | .num n => some (.num n)
  | .bool b => some (.bool b)
  | _ => none

/-- Modelled from the spec: the decoding of a set element, an atom or the tagged pair
of a named uuid. -/
def decodeSetElem : Json → Option SetElem
  | .arr (.cons (.str "uuid") (.cons (.str id) .nil)) => some (.uuid id)
  | j => (decodeAtom j).map SetElem.atom

/-- Modelled from the spec: the decoding of one key/value pair of a map on the wire. -/
def decodePair : Json → Option (Atom × Atom)
  | .arr (.cons k (.cons v .nil)) =>
    match decodeAtom k, decodeAtom v with
    | some a, some b => some (a, b)
    | _, _ => none
  | _ => none

/-- Modelled from the spec: the decoding of a wire value from its wire forms, a bare
atom, the pair tagged "uuid", the pair tagged "set" and the pair tagged "map". -/
def decodeWireValue : Json → Option WireValue
  | .arr (.cons (.str "uuid") (.cons (.str id) .nil)) => some (.uuid id)
  | .arr (.cons (.str "set") (.cons (.arr elems) .nil)) =>
    (elems.toList.mapM decodeSetElem).map WireValue.set
  | .arr (.cons (.str "map") (.cons (.arr pairs) .nil)) =>
    (pairs.toList.mapM decodePair).map WireValue.map
  | j => (decodeAtom j).map WireValue.atom

/-- Modelled from the spec: the decoding of a JSON object into a mapping, every member
decoded by `f`; it fails when the value is no object or when a member fails. Members
are entered in order, so a repeated key keeps its last value. -/
def decodeObject {V : Type} (f : Json → Option V) : Json → Option (GoMap V)
  | .obj members =>
    members.toList.foldl
      (fun acc kv =>
        match acc, f kv.2 with
        | some m, some v => some (m.set kv.1 v)
        | _, _ => none)
      (some GoMap.empty)
  | _ => none

/-- Modelled from the spec: the decoding of a row, an object of wire values. -/
def decodeRow (j : Json) : Option Row := decodeObject decodeWireValue j

/-- Modelled from the spec: the decoding of the optional member `key` of a row update;
`some none` when the member is absent, `none` when it is present and no row. -/
def decodeOptionalRow (members : List (String × Json)) (key : String) : Option (Option Row) :=
  match members.find? (fun kv => kv.1 = key) with
  | none => some none
  | some kv => (decodeRow kv.2).map some

/-- Modelled from the spec: the decoding of a row update, an object with the optional
members "old" and "new". -/
def decodeRowUpdate : Json → Option RowUpdate
  | .obj members =>
    match decodeOptionalRow members.toList "old", decodeOptionalRow members.toList "new" with
    | some old, some new => some ⟨old, new⟩
    | _, _ => none
  | _ => none

/-- Modelled from the spec: the decoding of the payload of a notification into the
table updates, a nested mapping from table to row identifier to row update. It is all
or nothing. -/
def decodeTableUpdates (j : Json) : Option TableUpdates :=
  decodeObject (decodeObject decodeRowUpdate) j

/-- Modelled from the spec: the error of a malformed `update` message (FormatError). -/
def FormatError : GoError := fmt.Errorf "Invalid Update message" []

/-- Modelled from the spec: the dispatch loop of `update` over the registered handlers
still to invoke; `calls` records every invocation made so far, as the handler and the
table updates it received. -/
def update.dispatch {H : Type} (tableUpdates : TableUpdates) :
    List H → List (H × TableUpdates) → List (H × TableUpdates)
  | [], calls => calls
  | handler :: rest, calls => update.dispatch tableUpdates rest (calls ++ [(handler, tableUpdates)])

/-- Modelled from the spec: the handler `OvsdbClient.update` of the update notification,
whose source is not at hand. It returns the error, `none` for success, together with
the invocations of the registered handlers it made, in the order it made them. -/
def update {H : Type} (handlers : List H) (params : List Json) :
    Option GoError × List (H × TableUpdates) :=
  match params with
  | _ :: payload :: _ =>
    match decodeTableUpdates payload with
    | some tableUpdates => (none, update.dispatch tableUpdates handlers [])
    | none => (some FormatError, [])
  | _ => (some FormatError, [])

/-- Modelled from the spec: the handler `OvsdbClient.echo` of the liveness check, whose
source is not at hand. It is given the request and what `reply` points at, and returns
the error, `none` for success, together with what `reply` points at afterwards: the
request sequence itself. -/
def echo (args : List Json) (_ : List Json) : Option GoError × List Json :=
  (none, args)

/-! ## Example inputs -/

/-- The struct type `Bridge`, with a string field tagged `ovsdb:"_uuid"` and a name. -/
def exampleBridge : GoType :=
  .named "Bridge" (.struct
    (.cons "UUID" [("ovsdb", "_uuid")] (.basic .string)
      (.cons "Name" [("ovsdb", "name")] (.basic .string) .nil)))

/-- A struct type with two string fields tagged `ovsdb:"_uuid"`. -/
def exampleTwoUUIDs : GoType :=
  .named "TwoUUIDs" (.struct
    (.cons "UUID" [("ovsdb", "_uuid")] (.basic .string)
      (.cons "Other" [("ovsdb", "_uuid")] (.basic .string) .nil)))

/-- A struct type with two fields tagged `ovsdb:"_uuid"`, a string and an int. -/
def exampleMixedUUIDs : GoType :=
  .named "MixedUUIDs" (.struct
    (.cons "UUID" [("ovsdb", "_uuid")] (.basic .string)
      (.cons "Number" [("ovsdb", "_uuid")] (.basic .int) .nil)))

/-- A struct type with no field tagged `ovsdb:"_uuid"`. -/
def exampleNoUUID : GoType :=
  .named "NoUUID" (.struct (.cons "Name" [("ovsdb", "name")] (.basic .string) .nil))

/-- The dictionary with the one table "Bridge", its prototype `&Bridge{}`. -/
def exampleModels : GoMap Model :=
  ⟨[("Bridge", some (reflect.New exampleBridge))], by simp⟩

/-- The registry of the database "Open_vSwitch" with the one table "Bridge". -/
def exampleDB : ClientDBModel :=
  ⟨"Open_vSwitch", ⟨[("Bridge", .ptr exampleBridge)], by simp⟩⟩

/-- The dictionary with the one table "t", its prototype the nil interface. -/
def exampleNilModels : GoMap Model := ⟨[("t", none)], by simp⟩

/-- A schema of the database "Open_vSwitch": each table is described by its columns. -/
def exampleSchema : DatabaseSchema (List String) :=
  ⟨"Open_vSwitch", ⟨[("Bridge", ["name"]), ("Mirror", ["select_all"])], by simp⟩⟩

/-- A column mapper for the examples: the binding fails when the table has no column
"name". -/
def exampleNewInfo (columns : List String) (_ : Model) : Option GoError :=
  if "name" ∈ columns then none else some (fmt.Errorf "column %s not found" ["name"])

/-- A registry that claims the database "OVN_Northbound", with the tables "Bridge",
"Port", which the example schema lacks, and "Mirror", which the example mapper cannot
bind. -/
def exampleOtherDB : ClientDBModel :=
  ⟨"OVN_Northbound",
    ⟨[("Bridge", .ptr exampleBridge), ("Port", .ptr exampleBridge),
      ("Mirror", .ptr exampleBridge)], by simp⟩⟩

/-- The same tables and shapes under the name "Open_vSwitch", ranged over in another
order. -/
def exampleRenamedDB : ClientDBModel :=
  ⟨"Open_vSwitch",
    ⟨[("Mirror", .ptr exampleBridge), ("Bridge", .ptr exampleBridge),
      ("Port", .ptr exampleBridge)], by simp⟩⟩

/-- The payload `{"table": {"uuid": {}}}` of the test of `update`. -/
def examplePayload : Json :=
  .obj (.cons "table" (.obj (.cons "uuid" (.obj .nil) .nil)) .nil)

/-- The table updates with the one table "table" and its one row "uuid", neither the
old nor the new row present. -/
def exampleTableUpdates : TableUpdates :=
  ⟨[("table", ⟨[("uuid", ⟨none, none⟩)], by simp⟩)], by simp⟩

/-- The defined pointer type `type BridgePtr *Bridge`. -/
def exampleBridgePtr : GoType := .named "BridgePtr" (.ptr exampleBridge)

/-- The dictionary with the one table "Bridge", its prototype `BridgePtr(&Bridge{})`. -/
def exampleNamedModels : GoMap Model :=
  ⟨[("Bridge", some ⟨exampleBridgePtr, .ptr exampleBridge.zero⟩)], by simp⟩

/-- The registry of the one table "Bridge", registered with the type `BridgePtr`. -/
def exampleNamedDB : ClientDBModel :=
  ⟨"Open_vSwitch", ⟨[("Bridge", exampleBridgePtr)], by simp⟩⟩

/-! ## Lemmas on maps and on `reflect` -/

theorem find?_filter_ne {V : Type} (l : List (String × V)) (k t : String) (h : t ≠ k) :
    (l.filter (fun e => e.1 ≠ k)).find? (fun e => e.1 = t) = l.find? (fun e => e.1 = t) := by
  induction l with
  | nil => rfl
  | cons e rest ih =>
    by_cases he : e.1 = k
    · have het : ¬ e.1 = t := fun h2 => h (h2.symm.trans he)
      rw [List.filter_cons, List.find?_cons]
      simp only [het, decide_False]
      simp only [he, ne_eq, not_true_eq_false, decide_False, Bool.false_eq_true, if_false]
      exact ih
    · rw [List.filter_cons]
      simp only [he, ne_eq, not_false_eq_true, decide_True, if_true, List.find?_cons]
      by_cases het : e.1 = t
      · simp [het]
      · simp only [het, decide_False]
        simpa using ih

theorem find?_key_of_mem {V : Type} (l : List (String × V)) (k : String) (v : V)
    (nd : (l.map Prod.fst).Nodup) (h : (k, v) ∈ l) :
    l.find? (fun e => e.1 = k) = some (k, v) := by
  induction l with
  | nil => cases h
  | cons e rest ih =>
    rw [List.map_cons, List.nodup_cons] at nd
    rcases List.mem_cons.1 h with h1 | h1
    · subst h1; simp
    · have hne : ¬ e.1 = k := by
        intro hek
        exact nd.1 (hek ▸ List.mem_map.2 ⟨(k, v), h1, rfl⟩)
      simp only [List.find?_cons, hne, decide_False]
      exact ih nd.2 h1

theorem GoMap.get?_set {V : Type} (m : GoMap V) (k t : String) (v : V) :
    (m.set k v).get? t = if t = k then some v else m.get? t := by
  unfold GoMap.get? GoMap.set
  by_cases h : t = k
  · subst h; simp
  · have hk : ¬ k = t := fun h2 => h h2.symm
    simp only [List.find?_cons, hk, decide_False, if_neg h]
    rw [find?_filter_ne _ _ _ h]

theorem GoMap.get?_empty {V : Type} (t : String) : (GoMap.empty : GoMap V).get? t = none := rfl

theorem GoMap.get?_eq_none_iff {V : Type} (m : GoMap V) (t : String) :
    m.get? t = none ↔ t ∉ m.entries.map Prod.fst := by
  unfold GoMap.get?
  simp [List.find?_eq_none]
  constructor
  · intro h v hv; exact h t v hv rfl
  · intro h a b hab hat; subst hat; exact h b hab

theorem GoMap.get?_of_mem {V : Type} (m : GoMap V) (k : String) (v : V)
    (h : (k, v) ∈ m.entries) : m.get? k = some v := by
  unfold GoMap.get?
  rw [find?_key_of_mem _ _ _ m.nodup h]; rfl

theorem GoMap.mem_of_get? {V : Type} (m : GoMap V) (k : String) (v : V)
    (h : m.get? k = some v) : (k, v) ∈ m.entries := by
  unfold GoMap.get? at h
  rcases hf : m.entries.find? (fun e => decide (e.1 = k)) with _ | e
  · rw [hf] at h; cases h
  · rw [hf] at h
    have h1 := List.mem_of_find?_eq_some hf
    have h2 := List.find?_some hf
    rcases e with ⟨a, b⟩
    simp at h h2
    subst h; subst h2; exact h1

theorem GoType.Elem_of_Kind_Ptr : (t : GoType) → t.Kind = Kind.Ptr → ∃ e, t.Elem = .ok e
  | .basic b, h => by cases b <;> cases h
  | .named _ u, h => GoType.Elem_of_Kind_Ptr u h
  | .ptr e, _ => ⟨e, rfl⟩
  | .slice _, h => by cases h
  | .array _ _, h => by cases h
  | .map _ _, h => by cases h
  | .chan _, h => by cases h
  | .func _, h => by cases h
  | .iface _, h => by cases h
  | .struct _, h => by cases h

theorem GoType.Fields_of_Kind_Struct : (t : GoType) → t.Kind = Kind.Struct →
    ∃ fs, t.Fields = .ok fs
  | .basic b, h => by cases b <;> cases h
  | .named _ u, h => GoType.Fields_of_Kind_Struct u h
  | .struct fs, _ => ⟨fs, rfl⟩
  | .ptr _, h => by cases h
  | .slice _, h => by cases h
  | .array _ _, h => by cases h
  | .map _ _, h => by cases h
  | .chan _, h => by cases h
  | .func _, h => by cases h
  | .iface _, h => by cases h

/-! ## Lemmas on `NewClientDBModel` -/

theorem NewClientDBModel.fieldLoop_eq : (fs : FieldList) → (acc : Bool) →
    NewClientDBModel.fieldLoop fs acc = (acc || fs.hasUUID)
  | .nil, acc => by simp [NewClientDBModel.fieldLoop, FieldList.hasUUID]
  | .cons _ tag ty rest, acc => by
    unfold NewClientDBModel.fieldLoop FieldList.hasUUID
    by_cases h : StructTag.Get tag "ovsdb" = "_uuid" ∧ ty.Kind = Kind.String
    · rw [if_pos h, NewClientDBModel.fieldLoop_eq rest true]; simp [h.1, h.2]
    · rw [if_neg h, NewClientDBModel.fieldLoop_eq rest acc]
      rcases not_and_or.1 h with h1 | h1 <;> simp [h1]

theorem GoType.isRecordShape_iff (t : GoType) :
    t.isRecordShape = true ↔
      t.Kind = Kind.Ptr ∧ ∃ elem fields, t.Elem = .ok elem ∧ elem.Kind = Kind.Struct ∧
        elem.Fields = .ok fields ∧ fields.hasUUID = true := by
  unfold GoType.isRecordShape GoType.isPtrToStruct
  constructor
  · intro h
    rcases he : t.Elem with p | elem
    · simp [he] at h
    · rcases hf : elem.Fields with p | fields
      · simp [he, hf] at h
      · simp [he, hf] at h
        exact ⟨h.1.1, elem, fields, rfl, h.1.2, hf, h.2⟩
  · rintro ⟨hk, elem, fields, he, hs, hf, hu⟩
    simp [hk, he, hs, hf, hu]

theorem NewClientDBModel.rangeLoop_cons_record (name k : String) (m : Model) (ty : GoType)
    (rest : List (String × Model)) (types : GoMap GoType)
    (h : reflect.TypeOf m = some ty) (hr : ty.isRecordShape = true) :
    NewClientDBModel.rangeLoop name ((k, m) :: rest) types
      = NewClientDBModel.rangeLoop name rest (types.set k ty) := by
  obtain ⟨hk, elem, fields, he, hs, hf, hu⟩ := (GoType.isRecordShape_iff ty).1 hr
  rw [NewClientDBModel.rangeLoop]
  simp [h, hk, he, hs, hf, NewClientDBModel.fieldLoop_eq, hu]

theorem NewClientDBModel.rangeLoop_cons_other (name k : String) (m : Model) (ty : GoType)
    (rest : List (String × Model)) (types : GoMap GoType)
    (h : reflect.TypeOf m = some ty) (hr : ty.isRecordShape = false) :
    ∃ err, NewClientDBModel.rangeLoop name ((k, m) :: rest) types = .ok (none, some err) := by
  rw [NewClientDBModel.rangeLoop]
  simp only [h]
  by_cases hk : ty.Kind = Kind.Ptr
  · obtain ⟨elem, he⟩ := GoType.Elem_of_Kind_Ptr ty hk
    simp only [hk, ne_eq, not_true_eq_false, if_false, he]
    by_cases hs : elem.Kind = Kind.Struct
    · obtain ⟨fields, hf⟩ := GoType.Fields_of_Kind_Struct elem hs
      simp only [hs, ne_eq, not_true_eq_false, if_false, hf]
      have hu : fields.hasUUID = false := by
        by_contra hu
        have : ty.isRecordShape = true :=
          (GoType.isRecordShape_iff ty).2 ⟨hk, elem, fields, he, hs, hf, by simpa using hu⟩
        rw [hr] at this; cases this
      simp [NewClientDBModel.fieldLoop_eq, hu]
    · simp [hs]
  · simp [hk]

theorem NewClientDBModel.rangeLoop_cons_nil (name k : String)
    (rest : List (String × Model)) (types : GoMap GoType) :
    NewClientDBModel.rangeLoop name ((k, none) :: rest) types = .error nilDereference := by
  rw [NewClientDBModel.rangeLoop]; rfl

theorem Model.isRecord_iff (m : Model) :
    m.isRecord = true ↔ ∃ ty, reflect.TypeOf m = some ty ∧ ty.isRecordShape = true := by
  unfold Model.isRecord
  rcases h : reflect.TypeOf m with _ | ty <;> simp

theorem NewClientDBModel.rangeLoop_records (name : String) :
    ∀ (l : List (String × Model)) (types : GoMap GoType),
      (∀ e ∈ l, e.2.isRecord = true) → (l.map Prod.fst).Nodup →
      ∃ db, NewClientDBModel.rangeLoop name l types = .ok (some db, none) ∧ db.name = name ∧
        ∀ t, (∀ m, (l.find? (fun e => e.1 = t)).map Prod.snd = some m →
                db.types.get? t = reflect.TypeOf m) ∧
             ((l.find? (fun e => e.1 = t)).map Prod.snd = none →
                db.types.get? t = types.get? t) := by
  intro l
  induction l with
  | nil =>
    intro types _ _
    exact ⟨⟨name, types⟩, rfl, rfl, fun t => ⟨fun m hm => (by cases hm), fun _ => rfl⟩⟩
  | cons e rest ih =>
    intro types hrec nd
    rcases e with ⟨k, m⟩
    obtain ⟨ty, hty, hshape⟩ := (Model.isRecord_iff m).1 (hrec (k, m) (List.mem_cons_self _ _))
    rw [List.map_cons, List.nodup_cons] at nd
    obtain ⟨db, hdb, hname, hget⟩ :=
      ih (types.set k ty) (fun e he => hrec e (List.mem_cons_of_mem _ he)) nd.2
    refine ⟨db, ?_, hname, ?_⟩
    · rw [NewClientDBModel.rangeLoop_cons_record name k m ty rest types hty hshape]; exact hdb
    · intro t
      by_cases hkt : k = t
      · subst hkt
        have hnone : (rest.find? (fun e => e.1 = k)).map Prod.snd = none := by
          rw [Option.map_eq_none', List.find?_eq_none]
          intro x hx hxk
          exact nd.1 (List.mem_map.2 ⟨x, hx, by simpa using hxk⟩)
        have := (hget k).2 hnone
        rw [GoMap.get?_set, if_pos rfl] at this
        constructor
        · intro m2 hm2
          simp at hm2; subst hm2; rw [this, hty]
        · intro h2; simp at h2
      · have hstep : ((k, m) :: rest).find? (fun e => e.1 = t) = rest.find? (fun e => e.1 = t) := by
          simp [List.find?_cons, hkt]
        rw [hstep]
        refine ⟨(hget t).1, fun h2 => ?_⟩
        rw [(hget t).2 h2, GoMap.get?_set, if_neg (fun h3 => hkt h3.symm)]

theorem NewClientDBModel.rangeLoop_cases (name : String) :
    ∀ (l : List (String × Model)) (types : GoMap GoType),
      (∀ e ∈ l, e.2.isRecord = true) ∨
      ((∃ err, NewClientDBModel.rangeLoop name l types = .ok (none, some err)) ∧
        ∃ e ∈ l, e.2.isRecord = false ∧ e.2 ≠ none) ∨
      (NewClientDBModel.rangeLoop name l types = .error nilDereference ∧
        ∃ e ∈ l, e.2 = none) := by
  intro l
  induction l with
  | nil => intro _; exact Or.inl (fun e he => by cases he)
  | cons e rest ih =>
    intro types
    rcases e with ⟨k, m⟩
    rcases m with _ | i
    · exact Or.inr (Or.inr ⟨NewClientDBModel.rangeLoop_cons_nil name k rest types,
        (k, none), List.mem_cons_self _ _, rfl⟩)
    · by_cases hshape : i.typ.isRecordShape = true
      · have hstep := NewClientDBModel.rangeLoop_cons_record name k (some i) i.typ rest types
          rfl hshape
        rcases ih (types.set k i.typ) with h | ⟨h, e, he, hbad⟩ | ⟨h, e, he, hnil⟩
        · left
          intro e he
          rcases List.mem_cons.1 he with h1 | h1
          · subst h1; exact (Model.isRecord_iff _).2 ⟨i.typ, rfl, hshape⟩
          · exact h e h1
        · exact Or.inr (Or.inl ⟨by rw [hstep]; exact h, e, List.mem_cons_of_mem _ he, hbad⟩)
        · exact Or.inr (Or.inr ⟨by rw [hstep]; exact h, e, List.mem_cons_of_mem _ he, hnil⟩)
      · have hshape2 : i.typ.isRecordShape = false := by simpa using hshape
        refine Or.inr (Or.inl ⟨NewClientDBModel.rangeLoop_cons_other name k (some i) i.typ rest
          types rfl hshape2, (k, some i), List.mem_cons_self _ _, ?_, by simp⟩)
        simp [Model.isRecord, reflect.TypeOf, hshape2]

theorem NewClientDBModel.rangeLoop_other (name : String) :
    ∀ (l : List (String × Model)) (types : GoMap GoType),
      (∀ e ∈ l, e.2 ≠ none) → (∃ e ∈ l, e.2.isRecord = false) →
      ∃ err, NewClientDBModel.rangeLoop name l types = .ok (none, some err) := by
  intro l types hnn ⟨e, he, hbad⟩
  rcases NewClientDBModel.rangeLoop_cases name l types with h | ⟨h, _⟩ | ⟨_, e2, he2, hnil⟩
  · rw [h e he] at hbad; cases hbad
  · exact h
  · exact absurd hnil (hnn e2 he2)

/-! ## Lemmas on zero values and on `NewModel` -/

theorem ValueList.replicate_AllZero (v : GoValue) (h : v.IsZero = true) :
    ∀ n, (ValueList.replicate n v).AllZero = true
  | 0 => by simp [ValueList.replicate, ValueList.AllZero]
  | n + 1 => by
    simp [ValueList.replicate, ValueList.AllZero, h, ValueList.replicate_AllZero v h n]

theorem Basic.zero_IsZero_basic (b : Basic) : b.zero.IsZero = true := by
  cases b <;> simp [Basic.zero, GoValue.IsZero]

mutual
theorem GoType.zero_IsZero : (t : GoType) → t.zero.IsZero = true
  | .basic b => by rw [GoType.zero]; exact Basic.zero_IsZero_basic b
  | .named _ u => by rw [GoType.zero]; exact GoType.zero_IsZero u
  | .ptr _ => by simp [GoType.zero, GoValue.IsZero]
  | .slice _ => by simp [GoType.zero, GoValue.IsZero]
  | .array n e => by
    rw [GoType.zero, GoValue.IsZero]
    exact ValueList.replicate_AllZero _ (GoType.zero_IsZero e) n
  | .map _ _ => by simp [GoType.zero, GoValue.IsZero]
  | .chan _ => by simp [GoType.zero, GoValue.IsZero]
  | .func _ => by simp [GoType.zero, GoValue.IsZero]
  | .iface _ => by simp [GoType.zero, GoValue.IsZero]
  | .struct fs => by
    rw [GoType.zero, GoValue.IsZero]
    exact FieldList.zero_AllZero fs
theorem FieldList.zero_AllZero : (fs : FieldList) → fs.zero.AllZero = true
  | .nil => by simp [FieldList.zero, ValueList.AllZero]
  | .cons _ _ t rest => by
    rw [FieldList.zero, ValueList.AllZero, GoType.zero_IsZero t, FieldList.zero_AllZero rest]
    rfl
end

theorem FieldList.zero_length : (fs : FieldList) → fs.zero.length = fs.length
  | .nil => by simp [FieldList.zero, ValueList.length, FieldList.length]
  | .cons _ _ _ rest => by
    simp [FieldList.zero, ValueList.length, FieldList.length, FieldList.zero_length rest]

theorem GoType.zero_of_Fields : (t : GoType) → (fs : FieldList) → t.Fields = .ok fs →
    t.zero = .struct fs.zero
  | .named _ u, fs, h => by rw [GoType.zero]; exact GoType.zero_of_Fields u fs h
  | .struct fs2, fs, h => by
    rw [GoType.Fields] at h; cases h; rw [GoType.zero]
  | .basic _, _, h => by cases h
  | .ptr _, _, h => by cases h
  | .slice _, _, h => by cases h
  | .array _ _, _, h => by cases h
  | .map _ _, _, h => by cases h
  | .chan _, _, h => by cases h
  | .func _, _, h => by cases h
  | .iface _, _, h => by cases h

theorem ClientDBModel.NewModel_of_mem (db : ClientDBModel) (k : String) (ty : GoType)
    (h : (k, ty) ∈ db.types.entries) (hk : ty.Kind = Kind.Ptr) :
    ∃ elem, ty.Elem = .ok elem ∧ db.NewModel k = .ok (some (reflect.New elem), none) := by
  obtain ⟨elem, he⟩ := GoType.Elem_of_Kind_Ptr ty hk
  refine ⟨elem, he, ?_⟩
  unfold ClientDBModel.NewModel
  rw [GoMap.get?_of_mem _ _ _ h]
  simp [he]

theorem NewClientDBModel_ok (name : String) (models : GoMap Model)
    (r : Option ClientDBModel) (h : NewClientDBModel name models = .ok (r, none)) :
    ∃ db, r = some db ∧ db.name = name ∧ (∀ e ∈ models.entries, e.2.isRecord = true) ∧
      ∀ t, db.types.get? t = (models.get? t).bind reflect.TypeOf := by
  unfold NewClientDBModel at h
  rcases NewClientDBModel.rangeLoop_cases name models.entries GoMap.empty with
    hall | ⟨⟨err, herr⟩, _⟩ | ⟨hp, _⟩
  · obtain ⟨db, hdb, hname, hget⟩ :=
      NewClientDBModel.rangeLoop_records name models.entries GoMap.empty hall models.nodup
    rw [hdb] at h
    have hr : r = some db := by
      injection h with h; injection h with h1 h2; exact h1.symm
    refine ⟨db, hr, hname, hall, fun t => ?_⟩
    rcases hm : models.get? t with _ | m
    · have := (hget t).2 hm
      rw [this]; rfl
    · exact (hget t).1 m hm
  · rw [herr] at h; injection h with h; injection h with h1 h2; cases h2
  · rw [hp] at h; cases h

/-- Every registry that `NewClientDBModel` returns satisfies the registry invariant. -/
theorem NewClientDBModel_Registered (name : String) (models : GoMap Model)
    (db : ClientDBModel) (h : NewClientDBModel name models = .ok (some db, none)) :
    db.Registered := by
  obtain ⟨db2, hdb2, _, hall, hget⟩ := NewClientDBModel_ok name models (some db) h
  cases hdb2
  intro e he
  have hg : db.types.get? e.1 = some e.2 := GoMap.get?_of_mem _ _ _ he
  rw [hget e.1] at hg
  rcases hm : models.get? e.1 with _ | m
  · rw [hm] at hg; cases hg
  · rw [hm] at hg
    obtain ⟨ty, hty, hshape⟩ :=
      (Model.isRecord_iff m).1 (hall (e.1, m) (GoMap.mem_of_get? _ _ _ hm))
    have hty2 : reflect.TypeOf m = some e.2 := hg
    have hsame : ty = e.2 := Option.some.inj (hty.symm.trans hty2)
    rw [← hsame]
    exact ((GoType.isRecordShape_iff ty).1 hshape).1

/-! ## The registry: construction, `NewModel`, `FindTable` -/

/-- C1 (failing input): in the dictionary whose only prototype is the nil interface,
the prototype is no pointer to a struct, yet `NewClientDBModel` does not return an
error: the call `modelType.Kind()` on the nil `reflect.Type` panics. -/
theorem C1_NewClientDBModel_nil_prototype_panics :
    Model.isRecord none = false ∧
    NewClientDBModel "db" exampleNilModels = .error nilDereference ∧
    ∀ r, NewClientDBModel "db" exampleNilModels ≠ .ok r :=
  ⟨rfl, rfl, fun r h => by cases h⟩

/-- Away from nil prototypes `NewClientDBModel` returns, and it returns an error exactly
when some prototype is not a pointer to a struct with a string field tagged
`ovsdb:"_uuid"`; otherwise it returns a registry and no error. -/
theorem NewClientDBModel_error_iff (name : String) (models : GoMap Model)
    (hnn : ∀ e ∈ models.entries, e.2 ≠ none) :
    ∃ r err, NewClientDBModel name models = .ok (r, err) ∧
      (err.isSome = true ↔ ∃ e ∈ models.entries, e.2.isRecord = false) ∧
      (err.isSome = true → r = none) ∧ (err = none → r.isSome = true) := by
  unfold NewClientDBModel
  rcases NewClientDBModel.rangeLoop_cases name models.entries GoMap.empty with
    hall | ⟨⟨err, herr⟩, e, he, hbad, _⟩ | ⟨_, e, he, hnil⟩
  · obtain ⟨db, hdb, _, _⟩ :=
      NewClientDBModel.rangeLoop_records name models.entries GoMap.empty hall models.nodup
    refine ⟨some db, none, hdb, ⟨fun h => (by cases h), ?_⟩, fun h => (by cases h), fun _ => rfl⟩
    rintro ⟨e, he, hbad⟩
    rw [hall e he] at hbad; cases hbad
  · exact ⟨none, some err, herr, ⟨fun _ => ⟨e, he, hbad⟩, fun _ => rfl⟩, fun _ => rfl,
      fun h => (by cases h)⟩
  · exact absurd hnil (hnn e he)

/-- C2: on a registry returned by `NewClientDBModel`, `NewModel(t)` returns an error
exactly when `t` is no key of the dictionary, the model then being nil; for a key of
the dictionary it returns, with no error, a pointer to a struct of the struct type of
the prototype registered for `t`, with as many fields as that type and every field at
its zero value. -/
theorem C2_NewModel_of_registry (name : String) (models : GoMap Model) (db : ClientDBModel)
    (t : String) (h : NewClientDBModel name models = .ok (some db, none)) :
    ((∃ model err, db.NewModel t = .ok (model, some err)) ↔ models.get? t = none) ∧
    (∀ model err, db.NewModel t = .ok (model, some err) → model = none) ∧
    (∀ m, models.get? t = some m →
      ∃ ty elem fields, reflect.TypeOf m = some ty ∧ db.Types.get? t = some ty ∧
        ty.Elem = .ok elem ∧ elem.Kind = Kind.Struct ∧ elem.Fields = .ok fields ∧
        db.NewModel t = .ok (some ⟨.ptr elem, .ptr (.struct fields.zero)⟩, none) ∧
        fields.zero.length = fields.length ∧ fields.zero.AllZero = true) := by
  obtain ⟨db2, hdb2, _, hall, hget⟩ := NewClientDBModel_ok name models (some db) h
  cases hdb2
  have hsome : ∀ m, models.get? t = some m →
      ∃ ty elem fields, reflect.TypeOf m = some ty ∧ db.Types.get? t = some ty ∧
        ty.Elem = .ok elem ∧ elem.Kind = Kind.Struct ∧ elem.Fields = .ok fields ∧
        db.NewModel t = .ok (some ⟨.ptr elem, .ptr (.struct fields.zero)⟩, none) ∧
        fields.zero.length = fields.length ∧ fields.zero.AllZero = true := by
    intro m hm
    obtain ⟨ty, hty, hshape⟩ := (Model.isRecord_iff m).1 (hall (t, m) (GoMap.mem_of_get? _ _ _ hm))
    obtain ⟨_, elem, fields, he, hs, hf, _⟩ := (GoType.isRecordShape_iff ty).1 hshape
    have hg : db.types.get? t = some ty := by rw [hget t, hm]; exact hty
    refine ⟨ty, elem, fields, hty, hg, he, hs, hf, ?_, FieldList.zero_length fields,
      FieldList.zero_AllZero fields⟩
    unfold ClientDBModel.NewModel
    rw [hg]
    simp only [he, reflect.New, GoType.zero_of_Fields elem fields hf]
  have hnone : models.get? t = none →
      db.NewModel t = .ok (none, some (fmt.Errorf "table %s not found in database model" [t])) := by
    intro hm
    have hg : db.types.get? t = none := by rw [hget t, hm]; rfl
    unfold ClientDBModel.NewModel
    rw [hg]
  refine ⟨⟨?_, fun hm => ⟨_, _, hnone hm⟩⟩, ?_, hsome⟩
  · rintro ⟨model, err, hr⟩
    rcases hm : models.get? t with _ | m
    · rfl
    · obtain ⟨_, _, _, _, _, _, _, _, hnew, _⟩ := hsome m hm
      rw [hnew] at hr; injection hr with hr; injection hr with h1 h2; cases h2
  · intro model err hr
    rcases hm : models.get? t with _ | m
    · rw [hnone hm] at hr; injection hr with hr; injection hr with h1 h2; exact h1.symm
    · obtain ⟨_, _, _, _, _, _, _, _, hnew, _⟩ := hsome m hm
      rw [hnew] at hr; injection hr with hr; injection hr with h1 h2; cases h2

/-- C2 (witness): the registry built from the dictionary with the one table "Bridge":
`NewModel("Bridge")` is a pointer to the zero `Bridge`, and `NewModel("Port")` errs. -/
theorem C2_NewModel_of_registry_witness :
    NewClientDBModel "Open_vSwitch" exampleModels = .ok (some exampleDB, none) ∧
    exampleDB.NewModel "Bridge"
      = .ok (some ⟨.ptr exampleBridge, .ptr (.struct (.cons (.str "") (.cons (.str "") .nil)))⟩,
          none) ∧
    ((∃ model err, exampleDB.NewModel "Port" = .ok (model, some err)) ↔
      exampleModels.get? "Port" = none) :=
  ⟨rfl, rfl, (C2_NewModel_of_registry "Open_vSwitch" exampleModels exampleDB "Port" rfl).1⟩

theorem ClientDBModel.FindTable.rangeLoop_absent (T : GoType) :
    ∀ l : List (String × GoType), (∀ e ∈ l, e.2 ≠ T) →
      ClientDBModel.FindTable.rangeLoop (some T) l = ""
  | [], _ => rfl
  | (k, ty) :: rest, h => by
    have hne : ¬ some ty = some T := fun h2 =>
      h (k, ty) (List.mem_cons_self _ _) (Option.some.inj h2)
    rw [ClientDBModel.FindTable.rangeLoop, if_neg hne]
    exact ClientDBModel.FindTable.rangeLoop_absent T rest
      (fun e he => h e (List.mem_cons_of_mem _ he))

theorem ClientDBModel.FindTable.rangeLoop_present (T : GoType) :
    ∀ l : List (String × GoType), (∃ e ∈ l, e.2 = T) →
      (ClientDBModel.FindTable.rangeLoop (some T) l, T) ∈ l
  | [], h => by obtain ⟨e, he, _⟩ := h; cases he
  | (k, ty) :: rest, h => by
    rw [ClientDBModel.FindTable.rangeLoop]
    by_cases hty : ty = T
    · subst hty; simp
    · have hne : ¬ some ty = some T := fun h2 => hty (Option.some.inj h2)
      rw [if_neg hne]
      refine List.mem_cons_of_mem _ (ClientDBModel.FindTable.rangeLoop_present T rest ?_)
      obtain ⟨e, he, heT⟩ := h
      rcases List.mem_cons.1 he with h1 | h1
      · subst h1; exact absurd heT hty
      · exact ⟨e, h1, heT⟩

/-- C5: `FindTable` is a reverse lookup: when no table of the registry is registered
with the type `T` it returns the empty string, and otherwise it returns a table name
under which the registry holds `T`. -/
theorem C5_FindTable_reverse_lookup (db : ClientDBModel) (T : GoType) :
    ((∀ e ∈ db.Types.entries, e.2 ≠ T) → db.FindTable (some T) = "") ∧
    ((∃ e ∈ db.Types.entries, e.2 = T) →
      db.Types.get? (db.FindTable (some T)) = some T) :=
  ⟨ClientDBModel.FindTable.rangeLoop_absent T db.types.entries,
   fun h => GoMap.get?_of_mem _ _ _
     (ClientDBModel.FindTable.rangeLoop_present T db.types.entries h)⟩

theorem FieldList.hasUUID_of_countTagged_zero : (fs : FieldList) → fs.countTagged = 0 →
    fs.hasUUID = false
  | .nil, _ => rfl
  | .cons _ tag ty rest, h => by
    rw [FieldList.countTagged] at h
    have h1 : ¬ StructTag.Get tag "ovsdb" = "_uuid" := by
      intro h2; rw [if_pos h2] at h; omega
    rw [if_neg h1] at h
    rw [FieldList.hasUUID, FieldList.hasUUID_of_countTagged_zero rest (by omega)]
    simp [h1]

/-- C6 (counterexample): a pointer to a struct with two string fields tagged
`ovsdb:"_uuid"`, and a pointer to a struct with a string and an int field so tagged,
are pointers to structs whose number of tagged fields is two, not one; the
construction accepts both and returns a registry and no error. -/
theorem C6_two_tagged_fields_accepted :
    ((GoType.ptr exampleTwoUUIDs).isPtrToStruct = true ∧
      exampleTwoUUIDs.Fields.map FieldList.countTagged = .ok 2 ∧
      ∃ db, NewClientDBModel "db" ⟨[("t", some (reflect.New exampleTwoUUIDs))], by simp⟩
        = .ok (some db, none)) ∧
    ((GoType.ptr exampleMixedUUIDs).isPtrToStruct = true ∧
      exampleMixedUUIDs.Fields.map FieldList.countTagged = .ok 2 ∧
      ∃ db, NewClientDBModel "db" ⟨[("t", some (reflect.New exampleMixedUUIDs))], by simp⟩
        = .ok (some db, none)) :=
  ⟨⟨rfl, rfl, _, rfl⟩, ⟨rfl, rfl, _, rfl⟩⟩

/-- C6 (amended): when no prototype of the dictionary is the nil interface and some
prototype is a pointer to a struct none of whose fields is both tagged `ovsdb:"_uuid"`
and of kind String, as when no field is tagged at all, the construction returns an
error and no registry. -/
theorem C6_no_string_uuid_field_rejected (name : String) (models : GoMap Model)
    (hnn : ∀ e ∈ models.entries, e.2 ≠ none)
    (hbad : ∃ e ∈ models.entries, ∃ ty elem fields, reflect.TypeOf e.2 = some ty ∧
      ty.isPtrToStruct = true ∧ ty.Elem = .ok elem ∧ elem.Fields = .ok fields ∧
      (fields.hasUUID = false ∨ fields.countTagged = 0)) :
    ∃ err, NewClientDBModel name models = .ok (none, some err) := by
  obtain ⟨e, he, ty, elem, fields, hty, _, helem, hfields, hno⟩ := hbad
  have hu : fields.hasUUID = false :=
    hno.elim id (FieldList.hasUUID_of_countTagged_zero fields)
  refine NewClientDBModel.rangeLoop_other name models.entries GoMap.empty hnn ⟨e, he, ?_⟩
  by_contra hrec
  obtain ⟨ty2, hty2, hshape⟩ := (Model.isRecord_iff e.2).1 (by simpa using hrec)
  rw [hty] at hty2; cases hty2
  obtain ⟨_, elem2, fields2, he2, _, hf2, hu2⟩ := (GoType.isRecordShape_iff ty).1 hshape
  rw [helem] at he2; cases he2
  rw [hfields] at hf2; cases hf2
  rw [hu] at hu2; cases hu2

/-- C6 (witness): the dictionary whose one prototype is a pointer to a struct with no
field tagged `ovsdb:"_uuid"`. -/
theorem C6_no_string_uuid_field_rejected_witness :
    ∃ err, NewClientDBModel "db" ⟨[("t", some (reflect.New exampleNoUUID))], by simp⟩
      = .ok (none, some err) :=
  C6_no_string_uuid_field_rejected "db" ⟨[("t", some (reflect.New exampleNoUUID))], by simp⟩
    (by simp)
    ⟨("t", some (reflect.New exampleNoUUID)), by simp, GoType.ptr exampleNoUUID, exampleNoUUID,
      .cons "Name" [("ovsdb", "name")] (.basic .string) .nil, rfl, rfl, rfl, rfl, Or.inl rfl⟩

/-- C7: on success `NewClientDBModel(name, models)` returns a registry that records its
input: `Name()` is `name`, and `Types()` maps every table of `models` to the type of
its prototype and holds no other table, so that its keys are those of `models`. -/
theorem C7_registry_records_input (name : String) (models : GoMap Model)
    (r : Option ClientDBModel) (h : NewClientDBModel name models = .ok (r, none)) :
    ∃ db, r = some db ∧ db.Name = name ∧
      (∀ t, db.Types.get? t = (models.get? t).bind reflect.TypeOf) ∧
      (∀ t, (db.Types.get? t).isSome = (models.get? t).isSome) ∧
      (db.Types.entries.map Prod.fst).Perm (models.entries.map Prod.fst) := by
  obtain ⟨db, hr, hname, hall, hget⟩ := NewClientDBModel_ok name models r h
  have hkeys : ∀ t, (db.types.get? t).isSome = (models.get? t).isSome := by
    intro t
    rw [hget t]
    rcases hm : models.get? t with _ | m
    · rfl
    · obtain ⟨ty, hty, _⟩ := (Model.isRecord_iff m).1 (hall (t, m) (GoMap.mem_of_get? _ _ _ hm))
      show (reflect.TypeOf m).isSome = true
      rw [hty]; rfl
  refine ⟨db, hr, hname, hget, hkeys, ?_⟩
  refine (List.perm_ext_iff_of_nodup db.types.nodup models.nodup).2 (fun t => ?_)
  have h1 := GoMap.get?_eq_none_iff db.types t
  have h2 := GoMap.get?_eq_none_iff models t
  have h3 := hkeys t
  constructor
  · intro ht
    by_contra hc
    rw [h2.2 hc] at h3
    have : db.types.get? t = none := by simpa using h3
    exact h1.1 this ht
  · intro ht
    by_contra hc
    rw [h1.2 hc] at h3
    have : models.get? t = none := by simpa using h3.symm
    exact h2.1 this ht

/-- C7 (witness): the registry built from the dictionary with the one table "Bridge". -/
theorem C7_registry_records_input_witness :
    NewClientDBModel "Open_vSwitch" exampleModels = .ok (some exampleDB, none) ∧
    ∃ db, some exampleDB = some db ∧ db.Name = "Open_vSwitch" ∧
      (∀ t, db.Types.get? t = (exampleModels.get? t).bind reflect.TypeOf) ∧
      (∀ t, (db.Types.get? t).isSome = (exampleModels.get? t).isSome) ∧
      (db.Types.entries.map Prod.fst).Perm (exampleModels.entries.map Prod.fst) :=
  ⟨rfl, C7_registry_records_input "Open_vSwitch" exampleModels (some exampleDB) rfl⟩

/-! ## `Validate` -/

theorem ClientDBModel.Validate.rangeLoop_eq {TableSchema : Type}
    (NewInfo : TableSchema → Model → Option GoError)
    (db : ClientDBModel) (schema : DatabaseSchema TableSchema) :
    ∀ (l : List (String × GoType)) (errors : List GoError),
      (∀ e ∈ l, ∃ model, db.NewModel e.1 = .ok (model, none)) →
      ClientDBModel.Validate.rangeLoop NewInfo db schema l errors
        = .ok (errors ++ l.filterMap (db.tableDefect NewInfo schema)) := by
  intro l
  induction l with
  | nil => intro errors _; simp [ClientDBModel.Validate.rangeLoop]
  | cons e rest ih =>
    intro errors hnew
    rcases e with ⟨k, ty⟩
    obtain ⟨model, hmodel⟩ := hnew (k, ty) (List.mem_cons_self _ _)
    have hrest : ∀ e ∈ rest, ∃ model, db.NewModel e.1 = .ok (model, none) :=
      fun e he => hnew e (List.mem_cons_of_mem _ he)
    rw [ClientDBModel.Validate.rangeLoop, List.filterMap_cons]
    rcases hs : schema.Table k with _ | ts
    · simp only [ClientDBModel.tableDefect, hs]
      rw [ih _ hrest, List.append_assoc]; rfl
    · simp only [ClientDBModel.tableDefect, hs, hmodel]
      rcases hi : NewInfo ts model with _ | err
      · simp only []
        rw [ih _ hrest]
      · simp only []
        rw [ih _ hrest, List.append_assoc]; rfl

theorem ClientDBModel.Registered.NewModel_ok (db : ClientDBModel) (hreg : db.Registered) :
    ∀ e ∈ db.types.entries, ∃ model, db.NewModel e.1 = .ok (model, none) := by
  intro e he
  obtain ⟨elem, _, hnew⟩ := ClientDBModel.NewModel_of_mem db e.1 e.2 he (hreg e he)
  exact ⟨_, hnew⟩

theorem ClientDBModel.Validate_eq {TableSchema : Type}
    (NewInfo : TableSchema → Model → Option GoError)
    (db : ClientDBModel) (schema : DatabaseSchema TableSchema) (hreg : db.Registered) :
    db.Validate NewInfo schema
      = .ok (db.nameDefect schema ++ db.types.entries.filterMap (db.tableDefect NewInfo schema)) := by
  unfold ClientDBModel.Validate
  rw [ClientDBModel.Validate.rangeLoop_eq NewInfo db schema _ _
    (ClientDBModel.Registered.NewModel_ok db hreg)]
  rfl

theorem ClientDBModel.tableDefect_count {TableSchema : Type}
    (NewInfo : TableSchema → Model → Option GoError)
    (db : ClientDBModel) (schema : DatabaseSchema TableSchema) :
    ∀ l : List (String × GoType),
      (l.filterMap (db.tableDefect NewInfo schema)).length
        = l.countP (fun e => (schema.Table e.1).isNone)
          + l.countP (fun e =>
              match schema.Table e.1, db.NewModel e.1 with
              | some tableSchema, .ok (model, none) => (NewInfo tableSchema model).isSome
              | _, _ => false) := by
  intro l
  induction l with
  | nil => rfl
  | cons e rest ih =>
    rw [List.filterMap_cons, List.countP_cons, List.countP_cons]
    rcases hs : schema.Table e.1 with _ | ts
    · simp only [ClientDBModel.tableDefect, hs, List.length_cons, ih]
      simp; omega
    · rcases hm : db.NewModel e.1 with p | ⟨model, _ | err⟩
      · simp only [ClientDBModel.tableDefect, hs, hm, ih]; simp
      · rcases hi : NewInfo ts model with _ | err
        · simp only [ClientDBModel.tableDefect, hs, hm, hi, ih]; simp
        · simp only [ClientDBModel.tableDefect, hs, hm, hi, ih, List.length_cons]; simp; omega
      · simp only [ClientDBModel.tableDefect, hs, hm, ih]; simp

/-- C3: `Validate` returns the complete list of defects. On every registry it returns
the name mismatch, if any, followed by one error for each registered table that has a
defect and nothing else; the list has one entry for a name mismatch, one for each
registered table absent from the schema and one for each registered table of the
schema whose column binding fails on a fresh `NewModel` instance; it is empty exactly
when there is no defect. -/
theorem C3_Validate_reports_every_defect {TableSchema : Type}
    (NewInfo : TableSchema → Model → Option GoError)
    (db : ClientDBModel) (schema : DatabaseSchema TableSchema) (hreg : db.Registered) :
    ∃ errors, db.Validate NewInfo schema = .ok errors ∧
      errors = db.nameDefect schema
        ++ db.Types.entries.filterMap (db.tableDefect NewInfo schema) ∧
      errors.length = (if db.Name ≠ schema.Name then 1 else 0)
        + db.Types.entries.countP (fun e => (schema.Table e.1).isNone)
        + db.Types.entries.countP (fun e =>
            match schema.Table e.1, db.NewModel e.1 with
            | some tableSchema, .ok (model, none) => (NewInfo tableSchema model).isSome
            | _, _ => false) ∧
      (errors = [] ↔ db.Name = schema.Name ∧
        ∀ e ∈ db.Types.entries, ∃ tableSchema model, schema.Table e.1 = some tableSchema ∧
          db.NewModel e.1 = .ok (model, none) ∧ NewInfo tableSchema model = none) := by
  refine ⟨_, ClientDBModel.Validate_eq NewInfo db schema hreg, rfl, ?_, ?_⟩
  · rw [List.length_append, ClientDBModel.tableDefect_count, Nat.add_assoc]
    congr 1
    unfold ClientDBModel.nameDefect ClientDBModel.Name
    split <;> rfl
  · rw [List.append_eq_nil, List.filterMap_eq_nil_iff]
    constructor
    · rintro ⟨hn, ht⟩
      constructor
      · unfold ClientDBModel.nameDefect at hn
        by_contra hne
        have hne2 : db.name ≠ schema.Name := hne
        rw [if_pos hne2] at hn; cases hn
      · intro e he
        obtain ⟨model, hmodel⟩ := ClientDBModel.Registered.NewModel_ok db hreg e he
        have hd := ht e he
        unfold ClientDBModel.tableDefect at hd
        rcases hs : schema.Table e.1 with _ | ts
        · rw [hs] at hd; cases hd
        · rw [hs, hmodel] at hd
          exact ⟨ts, model, rfl, hmodel, hd⟩
    · rintro ⟨hn, ht⟩
      constructor
      · unfold ClientDBModel.nameDefect
        have hn2 : ¬ db.name ≠ schema.Name := fun hne => hne hn
        rw [if_neg hn2]
      · intro e he
        obtain ⟨ts, model, hs, hmodel, hi⟩ := ht e he
        unfold ClientDBModel.tableDefect
        rw [hs, hmodel]; exact hi

/-- C3 (witness): a registry with a name mismatch, a table absent from the schema and
a table whose binding fails: `Validate` returns the three defects. -/
theorem C3_Validate_reports_every_defect_witness :
    exampleOtherDB.Registered ∧
    ∃ errors, exampleOtherDB.Validate exampleNewInfo exampleSchema = .ok errors ∧
      errors = [fmt.Errorf "database model name (%s) does not match schema (%s)"
          ["OVN_Northbound", "Open_vSwitch"],
        fmt.Errorf "database model contains a model for table %s that does not exist in schema"
          ["Port"],
        fmt.Errorf "column %s not found" ["name"]] ∧
      errors.length = 3 := by
  have hreg : exampleOtherDB.Registered := by decide
  obtain ⟨errors, h1, h2, h3, _⟩ :=
    C3_Validate_reports_every_defect exampleNewInfo exampleOtherDB exampleSchema hreg
  exact ⟨hreg, errors, h1, h2.trans rfl, h3.trans rfl⟩

theorem ClientDBModel.NewModel_congr (db db2 : ClientDBModel)
    (hperm : db2.types.entries.Perm db.types.entries) (t : String) :
    db2.NewModel t = db.NewModel t := by
  have hget : db2.types.get? t = db.types.get? t := by
    rcases h : db.types.get? t with _ | ty
    · rw [GoMap.get?_eq_none_iff] at h ⊢
      exact fun hc => h ((hperm.map Prod.fst).mem_iff.1 hc)
    · exact GoMap.get?_of_mem _ _ _ (hperm.mem_iff.2 (GoMap.mem_of_get? _ _ _ h))
  unfold ClientDBModel.NewModel
  rw [hget]

/-- C4: `Validate` does not stop at a name mismatch. When the name of the registry
differs from the name of the schema, the result is the name-mismatch error followed by
table-level errors that are, up to their order, the errors `Validate` returns for a
registry with the same tables and shapes whose name is the name of the schema. -/
theorem C4_Validate_continues_after_name_mismatch {TableSchema : Type}
    (NewInfo : TableSchema → Model → Option GoError)
    (db db2 : ClientDBModel) (schema : DatabaseSchema TableSchema) (hreg : db.Registered)
    (hname : db.Name ≠ schema.Name) (hname2 : db2.Name = schema.Name)
    (hsame : db2.Types.entries.Perm db.Types.entries) :
    ∃ tableErrors errors2,
      db.Validate NewInfo schema
        = .ok (fmt.Errorf "database model name (%s) does not match schema (%s)"
            [db.Name, schema.Name] :: tableErrors) ∧
      db2.Validate NewInfo schema = .ok errors2 ∧
      tableErrors.Perm errors2 := by
  have hreg2 : db2.Registered := fun e he => hreg e (hsame.mem_iff.1 he)
  refine ⟨db.types.entries.filterMap (db.tableDefect NewInfo schema),
    db2.types.entries.filterMap (db2.tableDefect NewInfo schema), ?_, ?_, ?_⟩
  · rw [ClientDBModel.Validate_eq NewInfo db schema hreg]
    have hname3 : db.name ≠ schema.Name := hname
    simp only [ClientDBModel.nameDefect, if_pos hname3]
    rfl
  · rw [ClientDBModel.Validate_eq NewInfo db2 schema hreg2]
    have hname3 : ¬ db2.name ≠ schema.Name := fun hne => hne hname2
    simp only [ClientDBModel.nameDefect, if_neg hname3]
    rfl
  · have hfun : db2.tableDefect NewInfo schema = db.tableDefect NewInfo schema := by
      funext e
      unfold ClientDBModel.tableDefect
      rw [ClientDBModel.NewModel_congr db db2 hsame e.1]
    rw [hfun]
    exact (hsame.filterMap _).symm

/-- C4 (witness): the registry of "OVN_Northbound" and the registry of "Open_vSwitch"
with the same three tables, against the schema of "Open_vSwitch". -/
theorem C4_Validate_continues_after_name_mismatch_witness :
    exampleOtherDB.Registered ∧ exampleOtherDB.Name ≠ exampleSchema.Name ∧
    exampleRenamedDB.Name = exampleSchema.Name ∧
    exampleRenamedDB.Types.entries.Perm exampleOtherDB.Types.entries ∧
    ∃ tableErrors errors2,
      exampleOtherDB.Validate exampleNewInfo exampleSchema
        = .ok (fmt.Errorf "database model name (%s) does not match schema (%s)"
            [exampleOtherDB.Name, exampleSchema.Name] :: tableErrors) ∧
      exampleRenamedDB.Validate exampleNewInfo exampleSchema = .ok errors2 ∧
      tableErrors.Perm errors2 := by
  have hreg : exampleOtherDB.Registered := by decide
  have hname : exampleOtherDB.Name ≠ exampleSchema.Name := by decide
  have hsame : exampleRenamedDB.Types.entries.Perm exampleOtherDB.Types.entries := by decide
  exact ⟨hreg, hname, rfl, hsame,
    C4_Validate_continues_after_name_mismatch exampleNewInfo exampleOtherDB exampleRenamedDB
      exampleSchema hreg hname rfl hsame⟩

/-! ## The `update` notification handler -/

theorem update.dispatch_eq {H : Type} (tableUpdates : TableUpdates) :
    ∀ (handlers : List H) (calls : List (H × TableUpdates)),
      update.dispatch tableUpdates handlers calls
        = calls ++ handlers.map (fun h => (h, tableUpdates)) := by
  intro handlers
  induction handlers with
  | nil => intro calls; simp [update.dispatch]
  | cons h rest ih =>
    intro calls
    rw [update.dispatch, ih, List.append_assoc]; rfl

/-- C8: when the params have a second element and it decodes into a table updates
value, `update` returns no error and invokes every registered handler exactly once, in
registration order, each with the whole decoded value; the payload
`{"table": {"uuid": {}}}` decodes into one table with one row whose old and new rows
are both absent. -/
theorem C8_update_invokes_every_handler {H : Type} (handlers : List H) (params : List Json)
    (payload : Json) (tableUpdates : TableUpdates)
    (hpayload : params[1]? = some payload)
    (hdecode : decodeTableUpdates payload = some tableUpdates) :
    (update handlers params).1 = none ∧
    (update handlers params).2 = handlers.map (fun h => (h, tableUpdates)) ∧
    ((update handlers params).2.map Prod.fst = handlers ∧
      ∀ call ∈ (update handlers params).2, call.2 = tableUpdates) ∧
    decodeTableUpdates examplePayload = some exampleTableUpdates := by
  have hupdate : update handlers params = (none, handlers.map (fun h => (h, tableUpdates))) := by
    rcases params with _ | ⟨token, _ | ⟨second, rest⟩⟩
    · cases hpayload
    · cases hpayload
    · have hsecond : second = payload := by simpa using hpayload
      subst hsecond
      simp only [update, hdecode, update.dispatch_eq, List.nil_append]
  rw [hupdate]
  refine ⟨rfl, rfl, ⟨?_, ?_⟩, rfl⟩
  · simp [List.map_map, Function.comp_def]
  · intro call hcall
    obtain ⟨h, _, hh⟩ := List.mem_map.1 hcall
    rw [← hh]

/-- C8 (witness): the call of the test, `update(["hello", {"table": {"uuid": {}}}])`,
with three registered handlers. -/
theorem C8_update_invokes_every_handler_witness :
    [Json.str "hello", examplePayload][1]? = some examplePayload ∧
    decodeTableUpdates examplePayload = some exampleTableUpdates ∧
    (update [10, 20, 30] [Json.str "hello", examplePayload]).1 = none ∧
    (update [10, 20, 30] [Json.str "hello", examplePayload]).2
      = [(10, exampleTableUpdates), (20, exampleTableUpdates), (30, exampleTableUpdates)] :=
  ⟨rfl, rfl,
    (C8_update_invokes_every_handler [10, 20, 30] [Json.str "hello", examplePayload]
      examplePayload exampleTableUpdates rfl rfl).1,
    (C8_update_invokes_every_handler [10, 20, 30] [Json.str "hello", examplePayload]
      examplePayload exampleTableUpdates rfl rfl).2.1⟩

/-- C9: on params with fewer than two elements, the empty sequence included, `update`
returns an error and invokes no registered handler. -/
theorem C9_update_rejects_short_params {H : Type} (handlers : List H) (params : List Json)
    (hshort : params.length < 2) :
    (update handlers params).1 = some FormatError ∧ (update handlers params).2 = [] := by
  rcases params with _ | ⟨token, _ | ⟨second, rest⟩⟩
  · exact ⟨rfl, rfl⟩
  · exact ⟨rfl, rfl⟩
  · simp only [List.length_cons] at hshort; omega

/-- C9 (witness): the call of the test, `update(["hello"])`, with two registered
handlers. -/
theorem C9_update_rejects_short_params_witness :
    [Json.str "hello"].length < 2 ∧
    (update [10, 20] [Json.str "hello"]).1 = some FormatError ∧
    (update [10, 20] [Json.str "hello"]).2 = [] :=
  ⟨by decide, C9_update_rejects_short_params [10, 20] [Json.str "hello"] (by decide)⟩

/-- C10: on params of at least two elements whose second element does not decode into
a table updates value, as the string "gophers" does not, `update` returns an error and
invokes no registered handler. -/
theorem C10_update_rejects_malformed_payload {H : Type} (handlers : List H)
    (params : List Json) (payload : Json)
    (hpayload : params[1]? = some payload)
    (hdecode : decodeTableUpdates payload = none) :
    (update handlers params).1 = some FormatError ∧ (update handlers params).2 = [] ∧
    decodeTableUpdates (Json.str "gophers") = none := by
  rcases params with _ | ⟨token, _ | ⟨second, rest⟩⟩
  · cases hpayload
  · cases hpayload
  · have hsecond : second = payload := by simpa using hpayload
    subst hsecond
    have hupdate : update handlers (token :: second :: rest) = (some FormatError, []) := by
      simp only [update, hdecode]
    rw [hupdate]
    exact ⟨rfl, rfl, rfl⟩

/-- C10 (witness): the call of the test, `update(["hello", "gophers"])`, with two
registered handlers. -/
theorem C10_update_rejects_malformed_payload_witness :
    [Json.str "hello", Json.str "gophers"][1]? = some (Json.str "gophers") ∧
    decodeTableUpdates (Json.str "gophers") = none ∧
    (update [10, 20] [Json.str "hello", Json.str "gophers"]).1 = some FormatError ∧
    (update [10, 20] [Json.str "hello", Json.str "gophers"]).2 = [] :=
  ⟨rfl, rfl,
    (C10_update_rejects_malformed_payload [10, 20] [Json.str "hello", Json.str "gophers"]
      (Json.str "gophers") rfl rfl).1,
    (C10_update_rejects_malformed_payload [10, 20] [Json.str "hello", Json.str "gophers"]
      (Json.str "gophers") rfl rfl).2.1⟩

/-! ## The `echo` liveness handler -/

/-- C11: for every request sequence, `echo` returns no error and sets the reply to a
sequence equal to the request, of the same length and with the same element at every
position; so it does for the empty request and for the request `["hi"]`. -/
theorem C11_echo_replies_with_request (req reply : List Json) :
    (echo req reply).1 = none ∧ (echo req reply).2 = req ∧
    (echo req reply).2.length = req.length ∧
    (∀ i : Nat, (echo req reply).2[i]? = req[i]?) ∧
    (echo [] reply).2 = [] ∧ (echo [Json.str "hi"] reply).2 = [Json.str "hi"] :=
  ⟨rfl, rfl, rfl, fun _ => rfl, rfl, rfl⟩

/-! ## The registry invariant and the round trip -/

/-- C12: every type stored in a registry that `NewClientDBModel` returns is a pointer
to a struct with a field tagged `ovsdb:"_uuid"` of kind String; so for every registered
table the call of `Elem` in `NewModel` is defined, and `NewModel` returns a model and
no error, without panicking. -/
theorem C12_registry_invariant (name : String) (models : GoMap Model) (db : ClientDBModel)
    (h : NewClientDBModel name models = .ok (some db, none)) :
    ∀ e ∈ db.Types.entries,
      e.2.Kind = Kind.Ptr ∧
      ∃ elem fields, e.2.Elem = .ok elem ∧ elem.Kind = Kind.Struct ∧
        elem.Fields = .ok fields ∧ fields.hasUUID = true ∧
        db.NewModel e.1 = .ok (some (reflect.New elem), none) := by
  obtain ⟨db2, hdb2, _, hall, hget⟩ := NewClientDBModel_ok name models (some db) h
  cases hdb2
  intro e he
  have hg : db.types.get? e.1 = some e.2 := GoMap.get?_of_mem _ _ _ he
  have hg2 := hg
  rw [hget e.1] at hg2
  rcases hm : models.get? e.1 with _ | m
  · rw [hm] at hg2; cases hg2
  · rw [hm] at hg2
    obtain ⟨ty, hty, hshape⟩ :=
      (Model.isRecord_iff m).1 (hall (e.1, m) (GoMap.mem_of_get? _ _ _ hm))
    have hty2 : reflect.TypeOf m = some e.2 := hg2
    have hsame : ty = e.2 := Option.some.inj (hty.symm.trans hty2)
    rw [hsame] at hshape
    obtain ⟨hk, elem, fields, helem, hs, hf, hu⟩ := (GoType.isRecordShape_iff e.2).1 hshape
    refine ⟨hk, elem, fields, helem, hs, hf, hu, ?_⟩
    unfold ClientDBModel.NewModel
    rw [hg]
    simp only [helem]

/-- C12 (witness): the registry built from the dictionary with the one table "Bridge". -/
theorem C12_registry_invariant_witness :
    NewClientDBModel "Open_vSwitch" exampleModels = .ok (some exampleDB, none) ∧
    ∀ e ∈ exampleDB.Types.entries,
      e.2.Kind = Kind.Ptr ∧
      ∃ elem fields, e.2.Elem = .ok elem ∧ elem.Kind = Kind.Struct ∧
        elem.Fields = .ok fields ∧ fields.hasUUID = true ∧
        exampleDB.NewModel e.1 = .ok (some (reflect.New elem), none) :=
  ⟨rfl, C12_registry_invariant "Open_vSwitch" exampleModels exampleDB rfl⟩

/-- C13 (counterexample): the registry built from the one prototype `BridgePtr(&Bridge{})`
registers the table "Bridge" with the defined pointer type `BridgePtr`, its shapes
pairwise distinct; `NewModel("Bridge")` returns a `*Bridge`, and `FindTable` of that
type returns the empty string, neither "Bridge" nor any registered table. -/
theorem C13_named_pointer_breaks_round_trip :
    NewClientDBModel "Open_vSwitch" exampleNamedModels = .ok (some exampleNamedDB, none) ∧
    (exampleNamedDB.Types.entries.map Prod.snd).Nodup ∧
    exampleNamedDB.Types.get? "Bridge" = some exampleBridgePtr ∧
    exampleNamedDB.NewModel "Bridge" = .ok (some (reflect.New exampleBridge), none) ∧
    exampleNamedDB.FindTable (reflect.TypeOf (some (reflect.New exampleBridge))) = "" ∧
    exampleNamedDB.FindTable (reflect.TypeOf (some (reflect.New exampleBridge))) ≠ "Bridge" ∧
    exampleNamedDB.Types.get?
      (exampleNamedDB.FindTable (reflect.TypeOf (some (reflect.New exampleBridge)))) = none :=
  ⟨rfl, by decide, rfl, rfl, rfl, by decide, rfl⟩

/-- C13 (amended): for every registry and every table `t` registered with an unnamed
pointer type, `NewModel(t)` returns an instance of that very type, `FindTable` of the
type of the instance returns a table registered with the same type, and it returns `t`
when the registered types are pairwise distinct. -/
theorem C13_round_trip_unnamed_pointer (db : ClientDBModel) (t : String) (elem : GoType)
    (h : db.Types.get? t = some (.ptr elem)) :
    ∃ model, db.NewModel t = .ok (model, none) ∧
      reflect.TypeOf model = some (.ptr elem) ∧
      db.Types.get? (db.FindTable (reflect.TypeOf model)) = some (.ptr elem) ∧
      ((db.Types.entries.map Prod.snd).Nodup → db.FindTable (reflect.TypeOf model) = t) := by
  have hmem : (t, GoType.ptr elem) ∈ db.types.entries := GoMap.mem_of_get? _ _ _ h
  have hnew : db.NewModel t = .ok (some (reflect.New elem), none) := by
    unfold ClientDBModel.NewModel
    have h2 : db.types.get? t = some (.ptr elem) := h
    rw [h2]; rfl
  have hfound := ClientDBModel.FindTable.rangeLoop_present (.ptr elem) db.types.entries
    ⟨(t, .ptr elem), hmem, rfl⟩
  refine ⟨some (reflect.New elem), hnew, rfl, GoMap.get?_of_mem _ _ _ hfound, fun hnd => ?_⟩
  have hinj := List.inj_on_of_nodup_map hnd hfound hmem rfl
  exact congrArg Prod.fst hinj

/-- C13 (witness): the registry with the one table "Bridge" registered with `*Bridge`. -/
theorem C13_round_trip_unnamed_pointer_witness :
    exampleDB.Types.get? "Bridge" = some (.ptr exampleBridge) ∧
    ∃ model, exampleDB.NewModel "Bridge" = .ok (model, none) ∧
      reflect.TypeOf model = some (.ptr exampleBridge) ∧
      exampleDB.Types.get? (exampleDB.FindTable (reflect.TypeOf model))
        = some (.ptr exampleBridge) ∧
      ((exampleDB.Types.entries.map Prod.snd).Nodup →
        exampleDB.FindTable (reflect.TypeOf model) = "Bridge") :=
  ⟨rfl, C13_round_trip_unnamed_pointer exampleDB "Bridge" exampleBridge rfl⟩

/-! ## What `Validate` reads and which branches it takes -/

theorem ClientDBModel.Validate.rangeLoop_congr {TableSchema : Type}
    (NewInfo : TableSchema → Model → Option GoError)
    (db : ClientDBModel) (s1 s2 : DatabaseSchema TableSchema) :
    ∀ (l : List (String × GoType)) (errors : List GoError),
      (∀ e ∈ l, s1.Table e.1 = s2.Table e.1) →
      ClientDBModel.Validate.rangeLoop NewInfo db s1 l errors
        = ClientDBModel.Validate.rangeLoop NewInfo db s2 l errors := by
  intro l
  induction l with
  | nil => intro errors _; rfl
  | cons e rest ih =>
    intro errors hagree
    rcases e with ⟨k, ty⟩
    have hk : s1.Table k = s2.Table k := hagree (k, ty) (List.mem_cons_self _ _)
    have hrest : ∀ e ∈ rest, s1.Table e.1 = s2.Table e.1 :=
      fun e he => hagree e (List.mem_cons_of_mem _ he)
    rw [ClientDBModel.Validate.rangeLoop, ClientDBModel.Validate.rangeLoop, hk]
    rcases s2.Table k with _ | ts
    · exact ih _ hrest
    · rcases db.NewModel k with p | ⟨model, _ | err⟩
      · rfl
      · dsimp only
        rcases NewInfo ts model with _ | err
        · exact ih _ hrest
        · exact ih _ hrest
      · exact ih _ hrest

/-- C14: `Validate` reads of the schema only its name and its descriptions of the
registered tables: for two schemas with the same name that agree on every table
registered in the registry, `Validate` has the same outcome, on a registry the same list
of defects; in particular a table added to the schema that is not registered leaves the
result as it was. -/
theorem C14_Validate_reads_registered_tables_only {TableSchema : Type}
    (NewInfo : TableSchema → Model → Option GoError)
    (db : ClientDBModel) (s1 s2 : DatabaseSchema TableSchema)
    (hname : s1.Name = s2.Name)
    (hagree : ∀ e ∈ db.Types.entries, s1.Table e.1 = s2.Table e.1) :
    db.Validate NewInfo s1 = db.Validate NewInfo s2 ∧
    (db.Registered → ∃ errors,
      db.Validate NewInfo s1 = .ok errors ∧ db.Validate NewInfo s2 = .ok errors) ∧
    (∀ table description, db.Types.get? table = none →
      db.Validate NewInfo ⟨s1.Name, s1.Tables.set table description⟩
        = db.Validate NewInfo s1) := by
  have hmain : ∀ a b : DatabaseSchema TableSchema, a.Name = b.Name →
      (∀ e ∈ db.types.entries, a.Table e.1 = b.Table e.1) →
      db.Validate NewInfo a = db.Validate NewInfo b := by
    intro a b hn ha
    unfold ClientDBModel.Validate
    rw [hn, ClientDBModel.Validate.rangeLoop_congr NewInfo db a b _ _ ha]
  have heq := hmain s1 s2 hname hagree
  refine ⟨heq, fun hreg => ?_, fun table description hnot => ?_⟩
  · refine ⟨_, ClientDBModel.Validate_eq NewInfo db s1 hreg, ?_⟩
    rw [← heq]; exact ClientDBModel.Validate_eq NewInfo db s1 hreg
  · refine hmain _ s1 rfl (fun e he => ?_)
    have hne : e.1 ≠ table := by
      intro hc
      have hkey : table ∈ db.types.entries.map Prod.fst :=
        hc ▸ List.mem_map.2 ⟨e, he, rfl⟩
      exact (GoMap.get?_eq_none_iff db.types table).1 hnot hkey
    show (s1.Tables.set table description).get? e.1 = s1.Tables.get? e.1
    rw [GoMap.get?_set, if_neg hne]

/-- C14 (witness): the example schema and the same schema with a table "Port" that the
registry of "Bridge" does not register. -/
theorem C14_Validate_reads_registered_tables_only_witness :
    exampleSchema.Name = "Open_vSwitch" ∧
    (∀ e ∈ exampleDB.Types.entries,
      exampleSchema.Table e.1
        = (DatabaseSchema.mk "Open_vSwitch" (exampleSchema.Tables.set "Port" ["name"])).Table e.1) ∧
    exampleDB.Validate exampleNewInfo exampleSchema
      = exampleDB.Validate exampleNewInfo
          (DatabaseSchema.mk "Open_vSwitch" (exampleSchema.Tables.set "Port" ["name"])) :=
  ⟨rfl, by decide,
    (C14_Validate_reads_registered_tables_only exampleNewInfo exampleDB exampleSchema
      (DatabaseSchema.mk "Open_vSwitch" (exampleSchema.Tables.set "Port" ["name"]))
      rfl (by decide)).1⟩

/-- C15: inside `Validate` the error branch of `NewModel` is not reachable. Every table
name that `Validate` visits is a key of the types of the registry, so `NewModel` never
returns an error for it and on a registry returns a model; every error of the result is
the name mismatch, the error of a table absent from the schema or an error of the
column mapper, and none is the error "table ... not found in database model" unless
the column mapper itself returns it. -/
theorem C15_Validate_NewModel_error_unreachable {TableSchema : Type}
    (NewInfo : TableSchema → Model → Option GoError)
    (db : ClientDBModel) (schema : DatabaseSchema TableSchema) (hreg : db.Registered) :
    (∀ e ∈ db.Types.entries, (db.Types.get? e.1).isSome = true ∧
      (∀ model err, db.NewModel e.1 ≠ .ok (model, some err)) ∧
      ∃ model, db.NewModel e.1 = .ok (model, none)) ∧
    ∃ errors, db.Validate NewInfo schema = .ok errors ∧
      (∀ err ∈ errors,
        err = fmt.Errorf "database model name (%s) does not match schema (%s)"
          [db.Name, schema.Name] ∨
        (∃ e ∈ db.Types.entries, schema.Table e.1 = none ∧
          err = fmt.Errorf
            "database model contains a model for table %s that does not exist in schema"
            [e.1]) ∨
        (∃ e ∈ db.Types.entries, ∃ tableSchema model, schema.Table e.1 = some tableSchema ∧
          db.NewModel e.1 = .ok (model, none) ∧ NewInfo tableSchema model = some err)) ∧
      ((∀ tableSchema model err, NewInfo tableSchema model = some err →
          err.format ≠ "table %s not found in database model") →
        ∀ err ∈ errors, err.format ≠ "table %s not found in database model") := by
  have hnew := ClientDBModel.Registered.NewModel_ok db hreg
  have hprov : ∀ err ∈ db.nameDefect schema
        ++ db.types.entries.filterMap (db.tableDefect NewInfo schema),
      err = fmt.Errorf "database model name (%s) does not match schema (%s)"
          [db.Name, schema.Name] ∨
        (∃ e ∈ db.Types.entries, schema.Table e.1 = none ∧
          err = fmt.Errorf
            "database model contains a model for table %s that does not exist in schema"
            [e.1]) ∨
        (∃ e ∈ db.Types.entries, ∃ tableSchema model, schema.Table e.1 = some tableSchema ∧
          db.NewModel e.1 = .ok (model, none) ∧ NewInfo tableSchema model = some err) := by
    intro err herr
    rcases List.mem_append.1 herr with h1 | h1
    · left
      unfold ClientDBModel.nameDefect at h1
      split at h1
      · simpa using h1
      · cases h1
    · right
      obtain ⟨e, he, hd⟩ := List.mem_filterMap.1 h1
      obtain ⟨model, hmodel⟩ := hnew e he
      unfold ClientDBModel.tableDefect at hd
      rcases hs : schema.Table e.1 with _ | ts
      · rw [hs] at hd
        left
        exact ⟨e, he, hs, (Option.some.inj hd).symm⟩
      · rw [hs, hmodel] at hd
        right
        exact ⟨e, he, ts, model, hs, hmodel, hd⟩
  refine ⟨fun e he => ?_, _, ClientDBModel.Validate_eq NewInfo db schema hreg, hprov, ?_⟩
  · obtain ⟨model, hmodel⟩ := hnew e he
    refine ⟨?_, fun model2 err hc => ?_, model, hmodel⟩
    · have hg : db.types.get? e.1 = some e.2 := GoMap.get?_of_mem _ _ _ he
      show (db.types.get? e.1).isSome = true
      rw [hg]; rfl
    · rw [hmodel] at hc
      injection hc with hc; injection hc with h1 h2; cases h2
  · intro hinfo err herr
    rcases hprov err herr with h1 | ⟨e, _, _, h1⟩ | ⟨e, _, ts, model, _, _, h1⟩
    · rw [h1]
      show ("database model name (%s) does not match schema (%s)" : String)
        ≠ "table %s not found in database model"
      decide
    · rw [h1]
      show ("database model contains a model for table %s that does not exist in schema" : String)
        ≠ "table %s not found in database model"
      decide
    · exact hinfo ts model err h1

/-- C15 (witness): the registry with a name mismatch, an absent table and a failing
binding: its three errors are none of them the error of `NewModel`. -/
theorem C15_Validate_NewModel_error_unreachable_witness :
    exampleOtherDB.Registered ∧
    ∃ errors, exampleOtherDB.Validate exampleNewInfo exampleSchema = .ok errors ∧
      ∀ err ∈ errors, err.format ≠ "table %s not found in database model" := by
  have hreg : exampleOtherDB.Registered := by decide
  obtain ⟨_, errors, h1, _, h3⟩ :=
    C15_Validate_NewModel_error_unreachable exampleNewInfo exampleOtherDB exampleSchema hreg
  refine ⟨hreg, errors, h1, h3 (fun ts model err hinfo => ?_)⟩
  unfold exampleNewInfo at hinfo
  split at hinfo
  · cases hinfo
  · rw [← Option.some.inj hinfo]; decide

end Libovsdb
